import Mathlib

/-!
Shallow embedding of `github_archive_updater.py` (GithubArchiveUpdater),
together with theorems settling the specification claims about it.

External collaborators (`archive_utils`, `fileutils`, `updater_utils`,
`urllib`) are modelled as oracle functions supplied by a `WorldOps`
record; the calls the updater makes to them are recorded in an effect
trace so that side-effect and ordering claims can be stated.
-/

namespace GithubArchiveUpdaterModel

/-- URL kinds of `metadata_pb2.URL` (the proto enum; only `ARCHIVE` matters
to the updater, the others stand for every non-archive kind). -/
inductive URLType where
  | HOMEPAGE
  | ARCHIVE
  | GIT
  | SVN
  | HG
  | DARCS
  | OTHER
deriving DecidableEq

/-- A `metadata_pb2.URL` message: a kind tag and a string value.
Proto message equality (`==` in Python) is field-wise, which the derived
`DecidableEq` mirrors. -/
structure URLRec where
  type : URLType
  value : String
deriving DecidableEq

/-- The `third_party` submessage of a `metadata_pb2.MetaData` record:
an ordered list of URLs and a version string.  `license_type` stands for
the remaining third_party fields the updater never touches. -/
structure ThirdParty where
  url : List URLRec
  version : String
  license_type : String
deriving DecidableEq

/-- A `metadata_pb2.MetaData` record.  `name` and `description` stand for
the top-level fields the updater never touches. -/
structure MetaData where
  name : String
  description : String
  third_party : ThirdParty
deriving DecidableEq

/-- One entry of the `assets` list of a GitHub release payload, with the
two fields the updater reads. -/
structure Asset where
  browser_download_url : String
  size : Nat
deriving DecidableEq

/-- The parsed JSON payload of the latest-release endpoint.  `tag_name`
and `assets` are `Option` because the code treats them as dict keys that
may be absent (`self.data['assets']` / `self.data['tag_name']` raise
`KeyError` when missing, `self.data.get('tag_name')` yields `None`). -/
structure ReleasePayload where
  tag_name : Option String
  assets : Option (List Asset)
deriving DecidableEq

/-- Python exception kinds the embedded code can raise or propagate. -/
inductive PyError where
  | valueError (msg : String)
  | typeError
  | keyError
  | urlError
  | jsonDecodeError
  | osError (msg : String)
deriving DecidableEq

/-! ### The URL regex

`GITHUB_URL_PATTERN = r'^https:\/\/github.com\/([-\w]+)\/([-\w]+)\/' +
                      r'(releases\/download\/|archive\/)'`

Note the unescaped `.` after `github`: in the regex it matches any single
character except a newline, not only a literal dot.  Since the class
`[-\w]` never matches `/`, the greedy groups followed by a literal `/`
are equivalent to maximal-munch runs followed by `/` (any shorter match of
a group would require `/` at a position holding a word character), so a
deterministic matcher is a faithful model of `re.match`. -/

/-- ASCII model of the regex class `\w`: letters, digits, underscore. -/
def isWordChar (c : Char) : Bool := c.isAlphanum || c == '_'

/-- The regex class `[-\w]`. -/
def isOwnerRepoChar (c : Char) : Bool := c == '-' || isWordChar c

/-- Consume an exact literal prefix, returning the remaining characters. -/
def stripLit : List Char → List Char → Option (List Char)
  | [], s => some s
  | _ :: _, [] => none
  | l :: ls, c :: cs => if c == l then stripLit ls cs else none

/-- Model of `GITHUB_URL_RE.match(value)` returning the two captured
groups (`match.group(1, 2)`).  `re.match` anchors at the start only; any
trailing characters are ignored. -/
def githubUrlMatch (value : String) : Option (String × String) :=
  match stripLit "https://github".data value.data with
  | none => none
  | some rest =>
    match rest with
    | [] => none
    | dot :: rest1 =>
      if dot == '\n' then none
      else
        match stripLit "com/".data rest1 with
        | none => none
        | some rest2 =>
          match rest2.span isOwnerRepoChar with
          | (owner, rest3) =>
            if owner.isEmpty then none
            else
              match rest3 with
              | '/' :: rest4 =>
                match rest4.span isOwnerRepoChar with
                | (repo, rest5) =>
                  if repo.isEmpty then none
                  else
                    match rest5 with
                    | '/' :: rest6 =>
                      if ("releases/download/".data).isPrefixOf rest6
                          || ("archive/".data).isPrefixOf rest6 then
                        some (String.mk owner, String.mk repo)
                      else none
                    | _ => none
              | _ => none

/-- `GithubArchiveUpdater._parse_url`: rejects non-archive URL kinds with
`ValueError('Only archive url from Github is supported.')`, rejects values
the regex does not match with `ValueError('Url format is not supported.')`,
and otherwise yields the captured `(owner, repo)`.  (The `IndexError`
branch of the source is unreachable: the pattern always has two groups.) -/
def parse_url (url : URLRec) : Except PyError (String × String) :=
  if url.type ≠ URLType.ARCHIVE then
    .error (.valueError "Only archive url from Github is supported.")
  else
    match githubUrlMatch url.value with
    | none => .error (.valueError "Url format is not supported.")
    | some p => .ok p

/-- Follows the spec's words, for comparison with `githubUrlMatch`: the
recognized value shapes, matched from the start of the string, are
`https://github.com/<owner>/<repo>/releases/download/...` and
`https://github.com/<owner>/<repo>/archive/...`, with owner and repo
consisting of word characters and hyphens. -/
def matchesRecognizedShape (value : String) : Bool :=
  match stripLit "https://github.com/".data value.data with
  | none => false
  | some rest2 =>
    match rest2.span isOwnerRepoChar with
    | (owner, rest3) =>
      !owner.isEmpty &&
        (match rest3 with
          | '/' :: rest4 =>
            match rest4.span isOwnerRepoChar with
            | (repo, rest5) =>
              !repo.isEmpty &&
                (match rest5 with
                  | '/' :: rest6 =>
                    ("releases/download/".data).isPrefixOf rest6
                      || ("archive/".data).isPrefixOf rest6
                  | _ => false)
          | _ => false)

/-! ### Updater state and the two query methods -/

/-- The instance attributes set by `GithubArchiveUpdater.__init__`. -/
structure UpdaterState where
  proj_path : String
  metadata : MetaData
  old_url : URLRec
  owner : String
  repo : String
  data : Option ReleasePayload
deriving DecidableEq

/-- `GithubArchiveUpdater.__init__`: stores the arguments, initialises
`owner`, `repo`, `data` to `None` and runs `_parse_url`, whose
`ValueError`s propagate out of construction. -/
def init (url : URLRec) (proj_path : String) (metadata : MetaData) :
    Except PyError UpdaterState :=
  match parse_url url with
  | .error e => .error e
  | .ok (o, r) =>
    .ok { proj_path := proj_path, metadata := metadata, old_url := url,
          owner := o, repo := r, data := none }

/-- Outcome of the single `urllib.request.urlopen` + `json.loads` step of
`get_latest_version`, as seen by the updater: a parsed payload, a network
error, or a JSON-decode error. -/
inductive FetchOutcome where
  | success (payload : ReleasePayload)
  | netError
  | malformedJson
deriving DecidableEq

/-- The URL `get_latest_version` formats for its request. -/
def latestReleaseUrl (owner repo : String) : String :=
  "https://api.github.com/repos/" ++ owner ++ "/" ++ repo ++ "/releases/latest"

/-- `GithubArchiveUpdater.get_latest_version`, with the network modelled
as an oracle `fetch`.  Returns the Python result (`tag_name` or a raised
error), the state after the call, and the list of request URLs issued.
Note `self.data` is assigned before `tag_name` is read, so the payload is
cached even when the tag is missing and `KeyError` is raised. -/
def get_latest_version (st : UpdaterState) (fetch : String → FetchOutcome) :
    Except PyError String × UpdaterState × List String :=
  let u := latestReleaseUrl st.owner st.repo
  match fetch u with
  | .netError => (.error .urlError, st, [u])
  | .malformedJson => (.error .jsonDecodeError, st, [u])
  | .success p =>
    match p.tag_name with
    | none => (.error .keyError, { st with data := some p }, [u])
    | some t => (.ok t, { st with data := some p }, [u])

/-- `GithubArchiveUpdater.get_current_version`: reads
`self.metadata.third_party.version`. -/
def get_current_version (st : UpdaterState) : String :=
  st.metadata.third_party.version

/-! ### Asset selection -/

/-- Left-to-right scan of Python's `min` over a nonempty list, carrying
the current minimum and replacing it only on a strictly smaller key. -/
def minAux (cur : Asset) : List Asset → Asset
  | [] => cur
  | x :: xs => minAux (if x.size < cur.size then x else cur) xs

/-- Python's `min(l, key=lambda asset: asset['size'], default=None)`:
`None` on an empty list, otherwise the first element attaining the
minimum size (replacement happens only on strict `<`). -/
def pyMinBySize : List Asset → Option Asset
  | [] => none
  | a :: rest => some (minAux a rest)

/-- Python string formatting of `self.data.get('tag_name')`: a missing
key yields `None`, which `format` renders as the text `None`. -/
def pyStrOfTag : Option String → String
  | some s => s
  | none => "None"

/-- The list comprehension filtering the payload's assets to those whose
`browser_download_url` is a supported archive (`archive_utils.is_supported_archive`
is an external collaborator, passed in as a predicate). -/
def supportedAssets (supported : String → Bool) (assets : List Asset) :
    List Asset :=
  assets.filter (fun a => supported a.browser_download_url)

/-- Lines 89-101 of `update()`: pick the smallest supported asset's
download URL, falling back to the synthesized source tarball URL when no
asset qualifies. -/
def selectLatestUrl (owner repo : String) (supported : String → Bool)
    (assets : List Asset) (tag : Option String) : String :=
  match pyMinBySize (supportedAssets supported assets) with
  | some a => a.browser_download_url
  | none =>
    "https://github.com/" ++ owner ++ "/" ++ repo ++ "/archive/"
      ++ pyStrOfTag tag ++ ".tar.gz"

/-! ### The metadata patch -/

/-- The `for metadata_url in updated_metadata.third_party.url` loop of
`_write_metadata`: every entry equal (as a message, kind and value) to
`self.old_url` gets its `value` replaced by the new URL.  The comparison
is always against the caller-held `old_url`, which the loop never
mutates, so the loop is an elementwise transform of the copied list. -/
def rewriteUrls (old : URLRec) (newVal : String) : List URLRec → List URLRec
  | [] => []
  | u :: rest =>
    (if u = old then { u with value := newVal } else u)
      :: rewriteUrls old newVal rest

/-- The record `_write_metadata` builds: a deep copy (`CopyFrom`) of
`self.metadata` with `third_party.version` set to the tag and the URL
loop applied. -/
def makeUpdatedMetadata (meta : MetaData) (old : URLRec)
    (tag newUrl : String) : MetaData :=
  { meta with
    third_party :=
      { meta.third_party with
        version := tag
        url := rewriteUrls old newUrl meta.third_party.url } }

/-! ### The update orchestration -/

/-- External calls `update()` makes, in order. -/
inductive Effect where
  | download (url : String)
  | findRoot (dir : String)
  | writeMeta (path : String) (record : MetaData)
  | replace (srcDir dstDir : String)
  | rmtree (dir : Option String)
  | urlcleanup
deriving DecidableEq

/-- Oracles for the external collaborators `update()` invokes. -/
structure WorldOps where
  is_supported : String → Bool
  download_and_extract : String → Except PyError String
  find_archive_root : String → Except PyError String
  write_metadata : String → MetaData → Except PyError Unit
  replace_package : String → String → Except PyError Unit

/-- `GithubArchiveUpdater.update`.  Asset selection (lines 89-101) runs
before the `try`, so an exception there propagates without the `finally`
block running.  Inside the `try`/`finally`, the cleanup
(`shutil.rmtree(temporary_dir, ignore_errors=True)` then
`urllib.request.urlcleanup()`) runs on every exit; `rmtree` swallows its
own failures (including `temporary_dir` still being `None` when
`download_and_extract` itself raised), so cleanup never masks or raises.
Returns the Python result, the effect trace, and the state after the
call (no instance attribute is assigned by `update`). -/
def update (st : UpdaterState) (w : WorldOps) :
    Except PyError Unit × List Effect × UpdaterState :=
  match st.data with
  | none => (.error .typeError, [], st)
  | some p =>
    match p.assets with
    | none => (.error .keyError, [], st)
    | some assetList =>
      let latest_url :=
        selectLatestUrl st.owner st.repo w.is_supported assetList p.tag_name
      match w.download_and_extract latest_url with
      | .error e =>
        (.error e, [.download latest_url, .rmtree none, .urlcleanup], st)
      | .ok temporary_dir =>
        match w.find_archive_root temporary_dir with
        | .error e =>
          (.error e,
           [.download latest_url, .findRoot temporary_dir,
            .rmtree (some temporary_dir), .urlcleanup], st)
        | .ok package_dir =>
          match p.tag_name with
          | none =>
            (.error .keyError,
             [.download latest_url, .findRoot temporary_dir,
              .rmtree (some temporary_dir), .urlcleanup], st)
          | some tag =>
            let updated := makeUpdatedMetadata st.metadata st.old_url tag latest_url
            match w.write_metadata package_dir updated with
            | .error e =>
              (.error e,
               [.download latest_url, .findRoot temporary_dir,
                .writeMeta package_dir updated,
                .rmtree (some temporary_dir), .urlcleanup], st)
            | .ok _ =>
              match w.replace_package package_dir st.proj_path with
              | .error e =>
                (.error e,
                 [.download latest_url, .findRoot temporary_dir,
                  .writeMeta package_dir updated,
                  .replace package_dir st.proj_path,
                  .rmtree (some temporary_dir), .urlcleanup], st)
              | .ok _ =>
                (.ok (),
                 [.download latest_url, .findRoot temporary_dir,
                  .writeMeta package_dir updated,
                  .replace package_dir st.proj_path,
                  .rmtree (some temporary_dir), .urlcleanup], st)

/-! ### Concrete fixtures used by witnesses and counterexamples -/

/-- The spec's worked example for selection: assets of sizes 50, 10
(supported) and 1 (unsupported); the size-10 asset wins. -/
def exSupported : String → Bool :=
  fun u => u == "https://g/A.zip" || u == "https://g/B.zip"

def exAssets : List Asset :=
  [{ browser_download_url := "https://g/A.zip", size := 50 },
   { browser_download_url := "https://g/B.zip", size := 10 },
   { browser_download_url := "https://g/C.bin", size := 1 }]

def dupOld : URLRec :=
  { type := URLType.ARCHIVE,
    value := "https://github.com/o/r/archive/1.0.tar.gz" }

/-- Metadata record whose URL list holds the original archive URL twice,
refuting the "exactly one entry rewritten" part of claim C4. -/
def dupMeta : MetaData :=
  { name := "pkg", description := "d",
    third_party :=
      { url := [{ type := URLType.ARCHIVE,
                  value := "https://github.com/o/r/archive/1.0.tar.gz" },
                { type := URLType.ARCHIVE,
                  value := "https://github.com/o/r/archive/1.0.tar.gz" }],
        version := "1.0", license_type := "NOTICE" } }

def exMeta : MetaData :=
  { name := "pkg", description := "d",
    third_party := { url := [dupOld], version := "1.0",
                     license_type := "NOTICE" } }

def exPayload : ReleasePayload :=
  { tag_name := some "v2.0", assets := some [] }

/-- A world in which every external call succeeds. -/
def okWorld : WorldOps :=
  { is_supported := fun _ => true
    download_and_extract := fun _ => .ok "/tmp/dl"
    find_archive_root := fun _ => .ok "/tmp/dl/pkg"
    write_metadata := fun _ _ => .ok ()
    replace_package := fun _ _ => .ok () }

/-- A world in which everything succeeds except the final package
replacement. -/
def failReplaceWorld : WorldOps :=
  { is_supported := fun _ => true
    download_and_extract := fun _ => .ok "/tmp/dl"
    find_archive_root := fun _ => .ok "/tmp/dl/pkg"
    write_metadata := fun _ _ => .ok ()
    replace_package := fun _ _ => .error (.osError "replace failed") }

/-- An updater whose cached payload carries a tag and an empty asset
list. -/
def readyState : UpdaterState :=
  { proj_path := "/proj", metadata := exMeta, old_url := dupOld,
    owner := "o", repo := "r", data := some exPayload }

/-- An updater whose cached payload is missing the `assets` key. -/
def noAssetsState : UpdaterState :=
  { proj_path := "/proj", metadata := exMeta, old_url := dupOld,
    owner := "o", repo := "r",
    data := some { tag_name := some "v1", assets := none } }

/-- An updater on which `get_latest_version` has never succeeded. -/
def emptyDataState : UpdaterState :=
  { proj_path := "/proj", metadata := exMeta, old_url := dupOld,
    owner := "o", repo := "r", data := none }

/-- A fetch oracle that always returns the example payload. -/
def exFetch : String → FetchOutcome :=
  fun _ => FetchOutcome.success exPayload

/-! ## Helper lemmas about the selection scan -/

theorem minAux_size_le : ∀ (l : List Asset) (cur : Asset),
    (minAux cur l).size ≤ cur.size ∧ ∀ x ∈ l, (minAux cur l).size ≤ x.size := by
  intro l
  induction l with
  | nil =>
    intro cur
    exact ⟨le_refl _, by intro x hx; cases hx⟩
  | cons x xs ih =>
    intro cur
    by_cases hx : x.size < cur.size
    · have h := ih x
      simp only [minAux, if_pos hx]
      refine ⟨le_trans h.1 (le_of_lt hx), ?_⟩
      intro y hy
      rcases List.mem_cons.mp hy with h1 | h2
      · rw [h1]; exact h.1
      · exact h.2 y h2
    · have h := ih cur
      simp only [minAux, if_neg hx]
      refine ⟨h.1, ?_⟩
      intro y hy
      rcases List.mem_cons.mp hy with h1 | h2
      · rw [h1]; exact le_trans h.1 (le_of_not_lt hx)
      · exact h.2 y h2

/-- The scan returns the first element of `cur :: l` attaining the
minimum size: everything strictly before it is strictly larger,
everything after it is at least as large. -/
theorem minAux_first : ∀ (l : List Asset) (cur : Asset),
    ∃ l1 l2, cur :: l = l1 ++ minAux cur l :: l2 ∧
      (∀ x ∈ l1, (minAux cur l).size < x.size) ∧
      (∀ x ∈ l2, (minAux cur l).size ≤ x.size) := by
  intro l
  induction l with
  | nil =>
    intro cur
    refine ⟨[], [], rfl, ?_, ?_⟩
    · intro x hx; cases hx
    · intro x hx; cases hx
  | cons x xs ih =>
    intro cur
    by_cases hx : x.size < cur.size
    · obtain ⟨l1, l2, hdec, hlt, hle⟩ := ih x
      have hm : minAux cur (x :: xs) = minAux x xs := by
        simp only [minAux, if_pos hx]
      rw [hm]
      refine ⟨cur :: l1, l2, ?_, ?_, hle⟩
      · rw [List.cons_append, ← hdec]
      · intro y hy
        rcases List.mem_cons.mp hy with h1 | h2
        · rw [h1]
          exact lt_of_le_of_lt (minAux_size_le xs x).1 hx
        · exact hlt y h2
    · obtain ⟨l1, l2, hdec, hlt, hle⟩ := ih cur
      have hm : minAux cur (x :: xs) = minAux cur xs := by
        simp only [minAux, if_neg hx]
      rw [hm]
      cases l1 with
      | nil =>
        simp only [List.nil_append] at hdec
        injection hdec with h1 h2
        refine ⟨[], x :: xs, ?_, ?_, ?_⟩
        · rw [List.nil_append, ← h1]
        · intro y hy; cases hy
        · intro y hy
          rcases List.mem_cons.mp hy with hyx | hyxs
          · rw [hyx, ← h1]
            exact le_of_not_lt hx
          · exact hle y (h2 ▸ hyxs)
      | cons hd l1' =>
        simp only [List.cons_append] at hdec
        injection hdec with h1 h2
        refine ⟨cur :: x :: l1', l2, ?_, ?_, hle⟩
        · simp only [List.cons_append]
          exact congrArg (fun t => cur :: x :: t) h2
        · intro y hy
          have hmc : (minAux cur xs).size < cur.size := by
            have h := hlt hd (List.mem_cons_self hd l1')
            rw [← h1] at h
            exact h
          rcases List.mem_cons.mp hy with hyc | hy'
          · rw [hyc]; exact hmc
          · rcases List.mem_cons.mp hy' with hyx | hyl
            · rw [hyx]
              exact lt_of_lt_of_le hmc (le_of_not_lt hx)
            · exact hlt y (List.mem_cons_of_mem hd hyl)

/-- `pyMinBySize` of a nonempty list is the first minimum-size element. -/
theorem pyMinBySize_first (l : List Asset) (h : l ≠ []) :
    ∃ l1 m l2, l = l1 ++ m :: l2 ∧ pyMinBySize l = some m ∧
      (∀ x ∈ l1, m.size < x.size) ∧ (∀ x ∈ l2, m.size ≤ x.size) := by
  match l with
  | [] => exact absurd rfl h
  | a :: rest =>
    obtain ⟨l1, l2, hdec, hlt, hle⟩ := minAux_first rest a
    exact ⟨l1, minAux a rest, l2, hdec, rfl, hlt, hle⟩

/-- The URL loop of `_write_metadata` is the elementwise rewrite of every
entry equal to the old URL. -/
theorem rewriteUrls_eq_map (old : URLRec) (nv : String) (l : List URLRec) :
    rewriteUrls old nv l =
      l.map (fun u => if u = old then { u with value := nv } else u) := by
  induction l with
  | nil => rfl
  | cons u rest ih => simp only [rewriteUrls, List.map, ih]

/-! ## Claim theorems -/

/-- Claim C1: for every cached release payload, asset selection filters
the assets to those whose download URL is a supported archive and returns
the download URL of the supported asset with the minimum declared size;
ties are broken by the first position in the payload's listed order (the
element is preceded only by strictly larger assets and followed only by
assets at least as large). -/
theorem c1_selection_min_size_stable
    (owner repo : String) (supported : String → Bool)
    (assets : List Asset) (tag : Option String)
    (h : supportedAssets supported assets ≠ []) :
    ∃ l1 m l2,
      supportedAssets supported assets = l1 ++ m :: l2 ∧
      selectLatestUrl owner repo supported assets tag = m.browser_download_url ∧
      (∀ x ∈ l1, m.size < x.size) ∧
      (∀ x ∈ l2, m.size ≤ x.size) := by
  obtain ⟨l1, m, l2, hdec, hmin, hlt, hle⟩ := pyMinBySize_first _ h
  refine ⟨l1, m, l2, hdec, ?_, hlt, hle⟩
  simp only [selectLatestUrl, hmin]

theorem c1_selection_min_size_stable_witness :
    supportedAssets exSupported exAssets ≠ [] ∧
    ∃ l1 m l2,
      supportedAssets exSupported exAssets = l1 ++ m :: l2 ∧
      selectLatestUrl "foo" "bar" exSupported exAssets (some "v1") =
        m.browser_download_url ∧
      (∀ x ∈ l1, m.size < x.size) ∧
      (∀ x ∈ l2, m.size ≤ x.size) :=
  ⟨by decide,
   c1_selection_min_size_stable "foo" "bar" exSupported exAssets (some "v1")
     (by decide)⟩

/-- Claim C2 (code bug): the pattern `GITHUB_URL_PATTERN` spells
`github.com` with an unescaped `.`, a regex wildcard, so `_parse_url`
accepts values whose host is not `github.com` at all — here
`https://githubXcom/foo/bar/archive/v1.0.tar.gz` parses to
`(foo, bar)` although it matches neither recognized shape, instead of
failing with the unsupported-format error the claim requires. -/
theorem c2_unescaped_dot_accepts_non_github_value :
    parse_url { type := URLType.ARCHIVE,
                value := "https://githubXcom/foo/bar/archive/v1.0.tar.gz" }
      = .ok ("foo", "bar") ∧
    matchesRecognizedShape "https://githubXcom/foo/bar/archive/v1.0.tar.gz"
      = false :=
  ⟨rfl, rfl⟩

/-- Claim C3: when no asset passes the supported-archive filter,
selection returns the synthesized source tarball URL built from the
resolved identity and the payload's tag value. -/
theorem c3_fallback_source_tarball
    (owner repo : String) (supported : String → Bool)
    (assets : List Asset) (tag : String)
    (h : supportedAssets supported assets = []) :
    selectLatestUrl owner repo supported assets (some tag) =
      "https://github.com/" ++ owner ++ "/" ++ repo ++ "/archive/"
        ++ tag ++ ".tar.gz" := by
  simp only [selectLatestUrl, h, pyMinBySize, pyStrOfTag]

theorem c3_fallback_source_tarball_witness :
    supportedAssets (fun _ => true) [] = [] ∧
    selectLatestUrl "foo" "bar" (fun _ => true) [] (some "v2.0") =
      "https://github.com/foo/bar/archive/v2.0.tar.gz" :=
  ⟨rfl,
   (c3_fallback_source_tarball "foo" "bar" (fun _ => true) [] "v2.0"
      rfl).trans (by decide)⟩

/-- Claim C4 is false as stated: on a record holding the original URL
twice, the loop of `_write_metadata` rewrites both entries, not exactly
one — the second entry, also equal to the original URL, is changed as
well rather than left untouched. -/
theorem c4_counterexample_duplicate_url_entries :
    (makeUpdatedMetadata dupMeta dupOld "1.1"
        "https://github.com/o/r/archive/1.1.tar.gz").third_party.url =
      [{ type := URLType.ARCHIVE,
         value := "https://github.com/o/r/archive/1.1.tar.gz" },
       { type := URLType.ARCHIVE,
         value := "https://github.com/o/r/archive/1.1.tar.gz" }] ∧
    dupMeta.third_party.url.get? 1 = some dupOld ∧
    dupOld.value ≠ "https://github.com/o/r/archive/1.1.tar.gz" := by
  decide

/-- Claim C4, amended: the updated record has its version set to the tag
and every URL entry equal (as a message) to the original input URL
rewritten to the selected URL — exactly one entry when the original URL
occurs exactly once — while all other fields and all non-matching URL
entries are unchanged. -/
theorem c4_amended_rewrite_matching_entries
    (meta : MetaData) (old : URLRec) (tag newUrl : String) :
    (makeUpdatedMetadata meta old tag newUrl).third_party.version = tag ∧
    (makeUpdatedMetadata meta old tag newUrl).third_party.url =
      meta.third_party.url.map
        (fun u => if u = old then { u with value := newUrl } else u) ∧
    (makeUpdatedMetadata meta old tag newUrl).name = meta.name ∧
    (makeUpdatedMetadata meta old tag newUrl).description =
      meta.description ∧
    (makeUpdatedMetadata meta old tag newUrl).third_party.license_type =
      meta.third_party.license_type :=
  ⟨rfl, rewriteUrls_eq_map old newUrl meta.third_party.url, rfl, rfl, rfl⟩

/-- Claim C5: when the metadata write succeeds and the subsequent
directory replacement fails, the replacement error propagates to the
caller and the metadata-write effect has already happened — the full
trace shows it is never compensated, so the two effects are
non-transactional. -/
theorem c5_metadata_write_not_rolled_back
    (st : UpdaterState) (w : WorldOps) (p : ReleasePayload) (al : List Asset)
    (tag td pd : String) (e : PyError)
    (hdata : st.data = some p)
    (hassets : p.assets = some al)
    (htag : p.tag_name = some tag)
    (hdl : w.download_and_extract
        (selectLatestUrl st.owner st.repo w.is_supported al (some tag))
      = .ok td)
    (hroot : w.find_archive_root td = .ok pd)
    (hwrite : w.write_metadata pd
        (makeUpdatedMetadata st.metadata st.old_url tag
          (selectLatestUrl st.owner st.repo w.is_supported al (some tag)))
      = .ok ())
    (hrepl : w.replace_package pd st.proj_path = .error e) :
    (update st w).1 = .error e ∧
    Effect.writeMeta pd
        (makeUpdatedMetadata st.metadata st.old_url tag
          (selectLatestUrl st.owner st.repo w.is_supported al (some tag)))
      ∈ (update st w).2.1 ∧
    (update st w).2.1 =
      [Effect.download
        (selectLatestUrl st.owner st.repo w.is_supported al (some tag)),
       Effect.findRoot td,
       Effect.writeMeta pd
         (makeUpdatedMetadata st.metadata st.old_url tag
           (selectLatestUrl st.owner st.repo w.is_supported al (some tag))),
       Effect.replace pd st.proj_path,
       Effect.rmtree (some td), Effect.urlcleanup] := by
  simp [update, hdata, hassets, htag, hdl, hroot, hwrite, hrepl]

theorem c5_metadata_write_not_rolled_back_witness :
    (update readyState failReplaceWorld).1
      = .error (.osError "replace failed") ∧
    Effect.writeMeta "/tmp/dl/pkg"
        (makeUpdatedMetadata exMeta dupOld "v2.0"
          "https://github.com/o/r/archive/v2.0.tar.gz")
      ∈ (update readyState failReplaceWorld).2.1 :=
  ⟨(c5_metadata_write_not_rolled_back readyState failReplaceWorld exPayload
      [] "v2.0" "/tmp/dl" "/tmp/dl/pkg" (.osError "replace failed")
      rfl rfl rfl rfl rfl rfl rfl).1,
   (c5_metadata_write_not_rolled_back readyState failReplaceWorld exPayload
      [] "v2.0" "/tmp/dl" "/tmp/dl/pkg" (.osError "replace failed")
      rfl rfl rfl rfl rfl rfl rfl).2.1⟩

/-- Claim C6 is false as stated: asset selection runs before the
`try`/`finally`, so an exception raised by asset selection — here the
`KeyError` from `self.data['assets']` on a payload without an `assets`
key — propagates without the cleanup running: the trace holds neither a
temp-directory removal nor the cache-clearing call. -/
theorem c6_counterexample_selection_error_skips_cleanup :
    (update noAssetsState okWorld).1 = .error .keyError ∧
    (update noAssetsState okWorld).2.1 = [] :=
  ⟨rfl, rfl⟩

/-- Claim C6, amended: on every exit path of `update()` that reaches the
download phase the cleanup runs and main-step errors propagate to the
caller after it — if download/extraction itself fails, its error is the
result and the trace shows the swallowed `rmtree` of the still-`None`
temporary variable followed by the cache clearing; once
download/extraction has produced the temporary directory, every exit
path (normal return, or an error from root location, the metadata write
including its missing-tag `KeyError`, or the package replacement) ends
with the removal of exactly that temporary directory followed by the
cache clearing, and each such error is the call's result.  An exception
raised during asset selection itself, which runs before the
`try`/`finally`, propagates without this cleanup running. -/
theorem c6_amended_cleanup_after_selection
    (st : UpdaterState) (w : WorldOps) (p : ReleasePayload) (al : List Asset)
    (hdata : st.data = some p) (hassets : p.assets = some al) :
    (∀ e, w.download_and_extract
          (selectLatestUrl st.owner st.repo w.is_supported al p.tag_name)
        = .error e →
      (update st w).1 = .error e ∧
      (update st w).2.1 =
        [Effect.download
          (selectLatestUrl st.owner st.repo w.is_supported al p.tag_name),
         Effect.rmtree none, Effect.urlcleanup]) ∧
    (∀ td, w.download_and_extract
          (selectLatestUrl st.owner st.repo w.is_supported al p.tag_name)
        = .ok td →
      (∃ pre, (update st w).2.1
          = pre ++ [Effect.rmtree (some td), Effect.urlcleanup]) ∧
      (∀ e, w.find_archive_root td = .error e →
        (update st w).1 = .error e) ∧
      (∀ pd, w.find_archive_root td = .ok pd →
        (p.tag_name = none → (update st w).1 = .error .keyError) ∧
        (∀ tag, p.tag_name = some tag →
          (∀ e, w.write_metadata pd
                (makeUpdatedMetadata st.metadata st.old_url tag
                  (selectLatestUrl st.owner st.repo w.is_supported al
                    (some tag)))
              = .error e →
            (update st w).1 = .error e) ∧
          (∀ u0 : Unit, w.write_metadata pd
                (makeUpdatedMetadata st.metadata st.old_url tag
                  (selectLatestUrl st.owner st.repo w.is_supported al
                    (some tag)))
              = .ok u0 →
            (∀ e, w.replace_package pd st.proj_path = .error e →
              (update st w).1 = .error e) ∧
            (∀ u1 : Unit, w.replace_package pd st.proj_path = .ok u1 →
              (update st w).1 = .ok ()))))) := by
  constructor
  · intro e hdl
    constructor <;> simp [update, hdata, hassets, hdl]
  · intro td hdl
    refine ⟨?_, ?_, ?_⟩
    · rcases hroot : w.find_archive_root td with e | pd
      · exact ⟨[Effect.download
          (selectLatestUrl st.owner st.repo w.is_supported al p.tag_name),
          Effect.findRoot td], by simp [update, hdata, hassets, hdl, hroot]⟩
      · rcases htag : p.tag_name with _ | tag
        · have hdl2 := hdl
          rw [htag] at hdl2
          exact ⟨[Effect.download
            (selectLatestUrl st.owner st.repo w.is_supported al none),
            Effect.findRoot td],
            by simp [update, hdata, hassets, htag, hdl2, hroot]⟩
        · have hdl2 := hdl
          rw [htag] at hdl2
          rcases hw : w.write_metadata pd
              (makeUpdatedMetadata st.metadata st.old_url tag
                (selectLatestUrl st.owner st.repo w.is_supported al
                  (some tag)))
            with e | u0
          · exact ⟨[Effect.download
              (selectLatestUrl st.owner st.repo w.is_supported al (some tag)),
              Effect.findRoot td,
              Effect.writeMeta pd
                (makeUpdatedMetadata st.metadata st.old_url tag
                  (selectLatestUrl st.owner st.repo w.is_supported al
                    (some tag)))],
              by simp [update, hdata, hassets, htag, hdl2, hroot, hw]⟩
          · rcases hr : w.replace_package pd st.proj_path with e | u1
            · exact ⟨[Effect.download
                (selectLatestUrl st.owner st.repo w.is_supported al
                  (some tag)),
                Effect.findRoot td,
                Effect.writeMeta pd
                  (makeUpdatedMetadata st.metadata st.old_url tag
                    (selectLatestUrl st.owner st.repo w.is_supported al
                      (some tag))),
                Effect.replace pd st.proj_path],
                by simp [update, hdata, hassets, htag, hdl2, hroot, hw, hr]⟩
            · exact ⟨[Effect.download
                (selectLatestUrl st.owner st.repo w.is_supported al
                  (some tag)),
                Effect.findRoot td,
                Effect.writeMeta pd
                  (makeUpdatedMetadata st.metadata st.old_url tag
                    (selectLatestUrl st.owner st.repo w.is_supported al
                      (some tag))),
                Effect.replace pd st.proj_path],
                by simp [update, hdata, hassets, htag, hdl2, hroot, hw, hr]⟩
    · intro e hroot
      simp [update, hdata, hassets, hdl, hroot]
    · intro pd hroot
      constructor
      · intro htag
        have hdl2 := hdl
        rw [htag] at hdl2
        simp [update, hdata, hassets, htag, hdl2, hroot]
      · intro tag htag
        have hdl2 := hdl
        rw [htag] at hdl2
        constructor
        · intro e hw
          simp [update, hdata, hassets, htag, hdl2, hroot, hw]
        · intro u0 hw
          constructor
          · intro e hr
            simp [update, hdata, hassets, htag, hdl2, hroot, hw, hr]
          · intro u1 hr
            simp [update, hdata, hassets, htag, hdl2, hroot, hw, hr]

theorem c6_amended_cleanup_after_selection_witness :
    readyState.data = some exPayload ∧ exPayload.assets = some [] ∧
    (∃ pre, (update readyState failReplaceWorld).2.1
        = pre ++ [Effect.rmtree (some "/tmp/dl"), Effect.urlcleanup]) ∧
    (update readyState failReplaceWorld).1
      = .error (.osError "replace failed") :=
  ⟨rfl, rfl,
   ((c6_amended_cleanup_after_selection readyState failReplaceWorld
       exPayload [] rfl rfl).2 "/tmp/dl" rfl).1,
   (((((c6_amended_cleanup_after_selection readyState failReplaceWorld
       exPayload [] rfl rfl).2 "/tmp/dl" rfl).2.2 "/tmp/dl/pkg" rfl).2
       "v2.0" rfl).2 () rfl).1 (.osError "replace failed") rfl⟩

/-- Claim C7: `update()` never mutates the caller's metadata record in
place — the state after the call is the state before it (in particular
the held record is identical), on success and on failure, and every
record handed to the metadata store is a patched copy built from the
held record, which itself stays untouched. -/
theorem c7_update_does_not_mutate_metadata
    (st : UpdaterState) (w : WorldOps) :
    (update st w).2.2 = st ∧
    ∀ path recd, Effect.writeMeta path recd ∈ (update st w).2.1 →
      ∃ tag u, recd = makeUpdatedMetadata st.metadata st.old_url tag u := by
  rcases hdata : st.data with _ | p
  · refine ⟨by simp [update, hdata], ?_⟩
    intro path recd h
    simp [update, hdata] at h
  · rcases hassets : p.assets with _ | al
    · refine ⟨by simp [update, hdata, hassets], ?_⟩
      intro path recd h
      simp [update, hdata, hassets] at h
    · rcases htag : p.tag_name with _ | tag
      · rcases hdl : w.download_and_extract
            (selectLatestUrl st.owner st.repo w.is_supported al none)
          with e | td
        · refine ⟨by simp [update, hdata, hassets, htag, hdl], ?_⟩
          intro path recd h
          simp [update, hdata, hassets, htag, hdl] at h
        · rcases hroot : w.find_archive_root td with e | pd
          · refine ⟨by simp [update, hdata, hassets, htag, hdl, hroot], ?_⟩
            intro path recd h
            simp [update, hdata, hassets, htag, hdl, hroot] at h
          · refine ⟨by simp [update, hdata, hassets, htag, hdl, hroot], ?_⟩
            intro path recd h
            simp [update, hdata, hassets, htag, hdl, hroot] at h
      · rcases hdl : w.download_and_extract
            (selectLatestUrl st.owner st.repo w.is_supported al (some tag))
          with e | td
        · refine ⟨by simp [update, hdata, hassets, htag, hdl], ?_⟩
          intro path recd h
          simp [update, hdata, hassets, htag, hdl] at h
        · rcases hroot : w.find_archive_root td with e | pd
          · refine ⟨by simp [update, hdata, hassets, htag, hdl, hroot], ?_⟩
            intro path recd h
            simp [update, hdata, hassets, htag, hdl, hroot] at h
          · rcases hw : w.write_metadata pd
                (makeUpdatedMetadata st.metadata st.old_url tag
                  (selectLatestUrl st.owner st.repo w.is_supported al
                    (some tag)))
              with e | u
            · refine
                ⟨by simp [update, hdata, hassets, htag, hdl, hroot, hw], ?_⟩
              intro path recd h
              simp [update, hdata, hassets, htag, hdl, hroot, hw] at h
              exact ⟨tag,
                selectLatestUrl st.owner st.repo w.is_supported al (some tag),
                h.2⟩
            · rcases hr : w.replace_package pd st.proj_path with e | u2
              · refine
                  ⟨by simp [update, hdata, hassets, htag, hdl, hroot, hw, hr],
                   ?_⟩
                intro path recd h
                simp [update, hdata, hassets, htag, hdl, hroot, hw, hr] at h
                exact ⟨tag,
                  selectLatestUrl st.owner st.repo w.is_supported al
                    (some tag),
                  h.2⟩
              · refine
                  ⟨by simp [update, hdata, hassets, htag, hdl, hroot, hw, hr],
                   ?_⟩
                intro path recd h
                simp [update, hdata, hassets, htag, hdl, hroot, hw, hr] at h
                exact ⟨tag,
                  selectLatestUrl st.owner st.repo w.is_supported al
                    (some tag),
                  h.2⟩

theorem c7_update_does_not_mutate_metadata_witness :
    (update readyState failReplaceWorld).2.2 = readyState ∧
    ∃ tag u,
      makeUpdatedMetadata exMeta dupOld "v2.0"
          "https://github.com/o/r/archive/v2.0.tar.gz"
        = makeUpdatedMetadata readyState.metadata readyState.old_url tag u :=
  ⟨(c7_update_does_not_mutate_metadata readyState failReplaceWorld).1,
   (c7_update_does_not_mutate_metadata readyState failReplaceWorld).2
     "/tmp/dl/pkg"
     (makeUpdatedMetadata exMeta dupOld "v2.0"
       "https://github.com/o/r/archive/v2.0.tar.gz")
     (by decide)⟩

/-- Claim C8: `get_latest_version()` issues exactly one request, to the
latest-release endpoint for the resolved identity; on a parsed payload
with a tag it caches the full payload on the instance and returns the
tag; a network error, malformed JSON, or missing tag field fails with
the corresponding error, with no retry (the request list stays a
singleton in every outcome). -/
theorem c8_get_latest_version_contract
    (st : UpdaterState) (fetch : String → FetchOutcome) :
    (get_latest_version st fetch).2.2 = [latestReleaseUrl st.owner st.repo] ∧
    latestReleaseUrl st.owner st.repo =
      "https://api.github.com/repos/" ++ st.owner ++ "/" ++ st.repo
        ++ "/releases/latest" ∧
    (∀ p t, fetch (latestReleaseUrl st.owner st.repo) = .success p →
        p.tag_name = some t →
        (get_latest_version st fetch).1 = .ok t ∧
        (get_latest_version st fetch).2.1 = { st with data := some p }) ∧
    (∀ p, fetch (latestReleaseUrl st.owner st.repo) = .success p →
        p.tag_name = none →
        (get_latest_version st fetch).1 = .error .keyError ∧
        (get_latest_version st fetch).2.1 = { st with data := some p }) ∧
    (fetch (latestReleaseUrl st.owner st.repo) = .netError →
        (get_latest_version st fetch).1 = .error .urlError) ∧
    (fetch (latestReleaseUrl st.owner st.repo) = .malformedJson →
        (get_latest_version st fetch).1 = .error .jsonDecodeError) := by
  refine ⟨?_, rfl, ?_, ?_, ?_, ?_⟩
  · rcases hf : fetch (latestReleaseUrl st.owner st.repo) with p | _ | _
    · rcases ht : p.tag_name with _ | t <;>
        simp [get_latest_version, hf, ht]
    · simp [get_latest_version, hf]
    · simp [get_latest_version, hf]
  · intro p t hf ht
    constructor <;> simp [get_latest_version, hf, ht]
  · intro p hf ht
    constructor <;> simp [get_latest_version, hf, ht]
  · intro hf
    simp [get_latest_version, hf]
  · intro hf
    simp [get_latest_version, hf]

theorem c8_get_latest_version_contract_witness :
    (get_latest_version emptyDataState exFetch).1 = .ok "v2.0" ∧
    (get_latest_version emptyDataState exFetch).2.1
      = { emptyDataState with data := some exPayload } ∧
    (get_latest_version emptyDataState exFetch).2.2
      = ["https://api.github.com/repos/o/r/releases/latest"] :=
  ⟨((c8_get_latest_version_contract emptyDataState exFetch).2.2.1
      exPayload "v2.0" rfl rfl).1,
   ((c8_get_latest_version_contract emptyDataState exFetch).2.2.1
      exPayload "v2.0" rfl rfl).2,
   ((c8_get_latest_version_contract emptyDataState exFetch).1).trans
     (by decide)⟩

/-- Claim C9: `get_current_version()` returns exactly the version string
stored in the metadata record, and its result is independent of the
cached network payload — in particular unchanged by any
`get_latest_version()` call, whatever the network returned. -/
theorem c9_get_current_version_pure
    (st : UpdaterState) (d1 d2 : Option ReleasePayload)
    (fetch : String → FetchOutcome) :
    get_current_version st = st.metadata.third_party.version ∧
    get_current_version { st with data := d1 }
      = get_current_version { st with data := d2 } ∧
    get_current_version (get_latest_version st fetch).2.1
      = get_current_version st := by
  refine ⟨rfl, rfl, ?_⟩
  rcases hf : fetch (latestReleaseUrl st.owner st.repo) with p | _ | _
  · rcases ht : p.tag_name with _ | t <;>
      simp [get_latest_version, get_current_version, hf, ht]
  · simp [get_latest_version, get_current_version, hf]
  · simp [get_latest_version, get_current_version, hf]

/-- Claim C10: calling `update()` while the cached payload is still
absent fails (`self.data['assets']` on `None` raises `TypeError`) before
any side effect: the effect trace is empty — no download, no metadata
write, no package replacement. -/
theorem c10_update_without_payload_has_no_side_effects
    (st : UpdaterState) (w : WorldOps) (h : st.data = none) :
    (update st w).1 = .error PyError.typeError ∧
    (update st w).2.1 = [] := by
  simp [update, h]

theorem c10_update_without_payload_has_no_side_effects_witness :
    emptyDataState.data = none ∧
    (update emptyDataState okWorld).1 = .error PyError.typeError ∧
    (update emptyDataState okWorld).2.1 = [] :=
  ⟨rfl,
   c10_update_without_payload_has_no_side_effects emptyDataState okWorld rfl⟩

end GithubArchiveUpdaterModel
